import Mathlib

/-!
Verification development for the capture-device lifecycle manager of the
smart-glasses HUD repository.  Strings from the TypeScript source are
modelled as `String` (Lean strings are lists of characters, matching
JavaScript's sequence-of-code-points view for the ASCII data handled here);
where character-level reasoning is needed we work on `List Char` directly.
Asynchronous functions are modelled as `Except`-valued functions (a rejected
promise is the `Except.error` channel), and the event-loop interleaving of
the HUD component is modelled as a small-step machine over explicit traces.
-/

/-! ## `src/services/geminiService.ts` — `analyzeImage`

The source cleans the incoming base64 string with

  `base64Image.includes('base64,') ? base64Image.split('base64,')[1] : base64Image`

JavaScript `split` cuts at every occurrence of the separator, so element 1 of
the result is the segment strictly between the first occurrence of
`"base64,"` and the following occurrence (or the end of the string).  We
model this on `List Char`: `afterFirstSep` returns the characters after the
first occurrence of the separator (`none` when the separator does not occur,
i.e. `includes` is false), and `upToSep` cuts that remainder at the next
occurrence.  -/

/-- The separator literal `'base64,'` used by the source. -/
def sepChars : List Char := ['b', 'a', 's', 'e', '6', '4', ',']

/-- Characters after the first occurrence of `sepChars`, or `none` when the
separator does not occur (JavaScript `includes` returning false). -/
def afterFirstSep : List Char → Option (List Char)
  | [] => none
  | c :: rest =>
      if sepChars.isPrefixOf (c :: rest) then some (rest.drop 6)
      else afterFirstSep rest

/-- Characters up to (excluding) the next occurrence of `sepChars`; the whole
list when the separator does not occur again.  Together with `afterFirstSep`
this is exactly JavaScript `s.split('base64,')[1]`. -/
def upToSep : List Char → List Char
  | [] => []
  | c :: rest =>
      if sepChars.isPrefixOf (c :: rest) then []
      else c :: upToSep rest

/-- The cleaning expression
`base64Image.includes('base64,') ? base64Image.split('base64,')[1] : base64Image`
from `analyzeImage` (geminiService.ts lines 21-23). -/
def cleanBase64 (base64Image : List Char) : List Char :=
  match afterFirstSep base64Image with
  | some rest => upToSep rest
  | none => base64Image

/-- Shape of a successful collaborator response (`response.text`); an absent
or empty text is modelled as `""`, matching the falsiness test in the source. -/
structure GenResponse where
  text : String
deriving DecidableEq

/-- The `AnalysisResult` interface from geminiService.ts. -/
structure AnalysisResult where
  text : String
deriving DecidableEq

/-- The request actually handed to `ai.models.generateContent`: mime type,
inline data payload, and the text prompt. -/
structure GenRequest where
  mimeType : String
  data : List Char
  prompt : String
deriving DecidableEq

/-- The request built by `analyzeImage` before the collaborator call
(geminiService.ts lines 25-43). -/
def buildRequest (base64Image : List Char) (prompt : String) : GenRequest :=
  { mimeType := "image/jpeg", data := cleanBase64 base64Image, prompt := prompt }

/-- Function `analyzeImage` (geminiService.ts lines 18-52).  The collaborator is a
parameter mapping the built request to either a response or an error; the
whole body sits in a `try`/`catch` whose catch clause rethrows the single
classified message, which in the `Except` reading of an async function is the
`error` channel. -/
def analyzeImage (collab : GenRequest → Except String GenResponse)
    (base64Image : List Char) (prompt : String) : Except String AnalysisResult :=
  match collab (buildRequest base64Image prompt) with
  | .error _ => .error "Failed to analyze visual input."
  | .ok r =>
      .ok { text := if r.text = "" then "No analysis returned from system." else r.text }

/-! ## Base64 data-URL transport, modelled from the spec

Modelled from the spec: the still-frame encoding (`canvas.toDataURL` on the
platform side) and the collaborator-side decoding are not part of `src/`;
§6 of the spec describes the transport as "mime type image/jpeg, base64
payload, optionally prefixed with a data-URL header".  We model standard
base64 over byte lists together with the jpeg data-URL header. -/

/-- The standard base64 alphabet. -/
def b64Alphabet : List Char :=
  "ABCDEFGHIJKLMNOPQRSTUVWXYZabcdefghijklmnopqrstuvwxyz0123456789+/".toList

/-- Sixtet to base64 character. -/
def b64EncChar (n : Nat) : Char := b64Alphabet.getD n 'A'

/-- Base64 character back to its sixtet. -/
def b64DecChar (c : Char) : Option Nat := b64Alphabet.findIdx? (fun d => d = c)

/-- Modelled from the spec: standard base64 encoding of a byte list,
including `'='` padding. -/
def b64Encode : List Nat → List Char
  | [] => []
  | [a] => [b64EncChar (a / 4), b64EncChar (a % 4 * 16), '=', '=']
  | [a, b] => [b64EncChar (a / 4), b64EncChar (a % 4 * 16 + b / 16),
               b64EncChar (b % 16 * 4), '=']
  | a :: b :: c :: rest =>
      b64EncChar (a / 4) :: b64EncChar (a % 4 * 16 + b / 16) ::
      b64EncChar (b % 16 * 4 + c / 64) :: b64EncChar (c % 64) :: b64Encode rest

/-- Modelled from the spec: standard base64 decoding, the inverse of
`b64Encode`; rejects malformed input. -/
def b64Decode : List Char → Option (List Nat)
  | [] => some []
  | c1 :: c2 :: c3 :: c4 :: rest =>
      match b64DecChar c1, b64DecChar c2 with
      | some s1, some s2 =>
          if c3 = '=' then
            if c4 = '=' ∧ rest = [] ∧ s2 % 16 = 0 then
              some [s1 * 4 + s2 / 16]
            else none
          else
            match b64DecChar c3 with
            | some s3 =>
                if c4 = '=' then
                  if rest = [] ∧ s3 % 4 = 0 then
                    some [s1 * 4 + s2 / 16, s2 % 16 * 16 + s3 / 4]
                  else none
                else
                  match b64DecChar c4, b64Decode rest with
                  | some s4, some tail =>
                      some ((s1 * 4 + s2 / 16) :: (s2 % 16 * 16 + s3 / 4) ::
                            (s3 % 4 * 64 + s4) :: tail)
                  | _, _ => none
            | none => none
      | _, _ => none
  | _ => none

/-- The jpeg data-URL header produced by the platform encoder. -/
def dataUrlHeader : List Char := "data:image/jpeg;base64,".toList

/-- Modelled from the spec: the full data-URL encoding of a raw byte list. -/
def dataUrlEncode (bytes : List Nat) : List Char := dataUrlHeader ++ b64Encode bytes

-- sanity checks on concrete values
example : cleanBase64 "data:image/jpeg;base64,TWFu".toList = "TWFu".toList := by decide
example : cleanBase64 "TWFu".toList = "TWFu".toList := by decide
example : b64Encode [77, 97, 110] = "TWFu".toList := by decide
example : b64Decode "TWFu".toList = some [77, 97, 110] := by decide
example : b64Encode [77, 97] = "TWE=".toList := by decide
example : b64Decode "TWE=".toList = some [77, 97] := by decide
example : b64Encode [77] = "TQ==".toList := by decide
example : b64Decode "TQ==".toList = some [77] := by decide

/-! ## `src/components/SmartGlassesHUD.tsx` — the stream controller machine

The component's acquisition logic runs on the browser's single-threaded
event loop.  `startStream` (lines 75-113) synchronously stops the tracks of
the stream currently bound to the video element and calls
`getUserMedia`; everything after the `await` is the platform's completion
callback.  We model this with an explicit world: the HUD's React state, the
set of platform streams ever created (with their `stopped` flags), the set of
in-flight `getUserMedia` calls, and a log of platform stream requests.
Events are: a selection change (which, via the `useEffect` on
`selectedDeviceId`, runs `startStream`), a manual "Refresh Feed" press, and
the success/failure completion of an in-flight call. -/

/-- One platform `MediaStream`; `stopped` records whether its tracks were
stopped via `track.stop()`. -/
structure MStream where
  sid : Nat
  device : String
  stopped : Bool
deriving DecidableEq

/-- The component's React state (lines 10-13) plus the video element's
`srcObject` binding (by stream id). -/
structure HudState where
  selectedDeviceId : String
  isStreaming : Bool
  error : Option String
  srcObject : Option Nat
deriving DecidableEq

/-- An in-flight `getUserMedia` call issued by `startStream`. -/
structure PendingCall where
  cid : Nat
  device : String
deriving DecidableEq

/-- Logged platform operation: a hardware stream request for a device. -/
inductive HudOp where
  | requestStream (device : String)
deriving DecidableEq

/-- The whole modelled world. -/
structure World where
  hud : HudState
  streams : List MStream
  pending : List PendingCall
  ops : List HudOp
  nextId : Nat
deriving DecidableEq

/-- Initial mount: empty selection, not streaming, no error, nothing bound. -/
def initWorld : World :=
  { hud := { selectedDeviceId := "", isStreaming := false, error := none, srcObject := none },
    streams := [], pending := [], ops := [], nextId := 0 }

/-- The loop `tracks.forEach(track => track.stop())` on the stream bound to
the video element (lines 80-83): marks that stream's tracks stopped. -/
def stopTracks (bound : Option Nat) (streams : List MStream) : List MStream :=
  match bound with
  | none => streams
  | some b => streams.map (fun s => if s.sid = b then { s with stopped := true } else s)

/-- The synchronous part of `startStream` (lines 75-95): the early return on
an empty selection, stopping the bound stream's tracks, and issuing the
platform stream request (which becomes a pending call). -/
def issueAcquire (w : World) : World :=
  if w.hud.selectedDeviceId = "" then w
  else
    { w with
      streams := stopTracks w.hud.srcObject w.streams,
      ops := w.ops ++ [.requestStream w.hud.selectedDeviceId],
      pending := w.pending ++ [{ cid := w.nextId, device := w.hud.selectedDeviceId }],
      nextId := w.nextId + 1 }

/-- The `catch` classification of `startStream` (lines 102-110). -/
def classifyStreamError (name msg : String) : String :=
  if name = "NotReadableError" then
    "DEVICE BUSY: Camera is used by another app or disconnected."
  else if name = "OverconstrainedError" then
    "FORMAT ERROR: Resolution not supported by glasses."
  else
    "CONNECTION FAILED: " ++ (if msg = "" then "Unknown error" else msg)

/-- Event-loop events driving the component. -/
inductive HudEvent where
  | select (d : String)
  | refresh
  | completeSuccess (cid : Nat)
  | completeFailure (cid : Nat) (name msg : String)

/-- One event-loop step.  A `select` of an unchanged id is a React bail-out;
a changed id re-runs the `useEffect` (lines 115-119) which calls
`startStream`.  A completion that matches no in-flight call is dropped (each
platform call resolves exactly once).  A successful completion (lines 97-101)
binds the new stream, sets `isStreaming`, and clears `error` — without any
supersession check.  A failed completion (lines 102-112) classifies the error
and clears `isStreaming`. -/
def hudStep (w : World) (e : HudEvent) : World :=
  match e with
  | .refresh => issueAcquire w
  | .select d =>
      if d = w.hud.selectedDeviceId then w
      else issueAcquire { w with hud := { w.hud with selectedDeviceId := d } }
  | .completeSuccess c =>
      match w.pending.find? (fun p => p.cid == c) with
      | none => w
      | some p =>
          { w with
            pending := w.pending.filter (fun q => !(q.cid == c)),
            streams := w.streams ++ [{ sid := c, device := p.device, stopped := false }],
            hud := { w.hud with srcObject := some c, isStreaming := true, error := none } }
  | .completeFailure c name msg =>
      match w.pending.find? (fun p => p.cid == c) with
      | none => w
      | some _ =>
          { w with
            pending := w.pending.filter (fun q => !(q.cid == c)),
            hud := { w.hud with
                       error := some (classifyStreamError name msg),
                       isStreaming := false } }

/-- Run a trace of events. -/
def hudRun (w : World) : List HudEvent → World
  | [] => w
  | e :: tr => hudRun (hudStep w e) tr

/-- The device of the stream currently bound to the video element. -/
def boundDevice (w : World) : Option String :=
  match w.hud.srcObject with
  | none => none
  | some b => (w.streams.find? (fun s => s.sid == b)).map (fun s => s.device)

/-- Number of streams whose tracks were never stopped — the number of
holders of the exclusive hardware lock. -/
def unstoppedCount (w : World) : Nat :=
  (w.streams.filter (fun s => !s.stopped)).length

/-- Whether an event makes the component issue a new platform stream
request. -/
def issuesCall (w : World) (e : HudEvent) : Bool :=
  match e with
  | .refresh => !(w.hud.selectedDeviceId == "")
  | .select d => !(d == w.hud.selectedDeviceId) && !(d == "")
  | _ => false

/-- A trace is sequential when every acquire is issued only while no
acquisition is in flight. -/
def seqOk (w : World) : List HudEvent → Bool
  | [] => true
  | e :: tr => (!issuesCall w e || w.pending.isEmpty) && seqOk (hudStep w e) tr

-- sanity: the out-of-order completion trace binds the stale stream
example :
    boundDevice (hudRun initWorld
      [.select "a", .select "b", .completeSuccess 1, .completeSuccess 0]) = some "a" := by
  decide

/-! ## `fetchDevices` (SmartGlassesHUD.tsx lines 17-56)

Modelled as a pure function of the platform oracle: the first enumeration
result, whether the permission request (the label-exposing
`getUserMedia({video:true})`) would be granted, and the second enumeration
result.  The returned `outcome` is the error message set *by this call*
(`none` when the call sets no error). -/

/-- A platform `MediaDeviceInfo`. -/
structure PlatDevice where
  kind : String
  deviceId : String
  label : String
deriving DecidableEq

/-- The component's `VideoDevice` (lines 3-6). -/
structure VideoDevice where
  deviceId : String
  label : String
deriving DecidableEq, Inhabited

/-- Filtering/mapping of the enumeration into video inputs (lines 29-34),
including the generic-label fallback. -/
def videoInputs (enum2 : List PlatDevice) : List VideoDevice :=
  (enum2.filter (fun d => d.kind == "videoinput")).map
    (fun d => { deviceId := d.deviceId,
                label := if d.label = "" then "Camera " ++ d.deviceId.take 5 ++ "..." else d.label })

/-- Result of one `fetchDevices` invocation. -/
structure FetchResult where
  devices : List VideoDevice
  selection : String
  outcome : Option String
  requestedPermission : Bool
deriving DecidableEq

/-- Function `fetchDevices(autoSelect)` (lines 17-56): check whether any enumerated
device exposes a label; if not, request permission (failing with the
PERMISSION DENIED message when the platform denies); enumerate and filter the
video inputs; set them; auto-select the last one when asked to or when
nothing is selected; report NO CAMERA when the catalog is empty. -/
def fetchDevices (autoSelect : Bool) (selection0 : String) (devices0 : List VideoDevice)
    (enum1 : List PlatDevice) (grant : Bool) (enum2 : List PlatDevice) : FetchResult :=
  let hasLabels := enum1.any (fun d => !(d.label == ""))
  if !hasLabels && !grant then
    { devices := devices0, selection := selection0,
      outcome := some "PERMISSION DENIED. Please allow camera access in browser settings.",
      requestedPermission := true }
  else
    let inputs := videoInputs enum2
    if inputs.length > 0 then
      if autoSelect || selection0 = "" then
        let targetId := (inputs.getD (inputs.length - 1) default).deviceId
        { devices := inputs,
          selection := if targetId ≠ selection0 then targetId else selection0,
          outcome := none, requestedPermission := !hasLabels }
      else
        { devices := inputs, selection := selection0, outcome := none,
          requestedPermission := !hasLabels }
    else
      { devices := inputs, selection := selection0,
        outcome := some "NO CAMERA DETECTED. Connect Glasses via OTG.",
        requestedPermission := !hasLabels }

/-! ## `cycleCamera` (SmartGlassesHUD.tsx lines 122-127) -/

/-- Function `cycleCamera`: no-op on catalogs of at most one device; otherwise
JavaScript `findIndex` (−1 when absent), `(currentIndex + 1) % devices.length`,
and selection of that device's id. -/
def cycleCamera (devices : List VideoDevice) (sel : String) : String :=
  if devices.length ≤ 1 then sel
  else
    let currentIndex : Int :=
      match devices.findIdx? (fun d => d.deviceId == sel) with
      | some i => (i : Int)
      | none => -1
    let nextIndex : Int := (currentIndex + 1) % (devices.length : Int)
    (devices.getD nextIndex.toNat default).deviceId

-- sanity
example : cycleCamera [⟨"a", "A"⟩, ⟨"b", "B"⟩] "a" = "b" := by decide
example : cycleCamera [⟨"a", "A"⟩, ⟨"b", "B"⟩] "b" = "a" := by decide
example : cycleCamera [⟨"a", "A"⟩, ⟨"b", "B"⟩] "zzz" = "a" := by decide
example : cycleCamera [⟨"a", "A"⟩] "a" = "a" := by decide
example : (fetchDevices false "" [] [] true
    [⟨"videoinput", "x", "X"⟩, ⟨"audioinput", "m", "M"⟩, ⟨"videoinput", "y", "Y"⟩]).selection
    = "y" := by decide

/-! ## Helper lemmas -/

theorem find?_append_of_forall_false {α : Type} (p : α → Bool) (l1 l2 : List α)
    (h : ∀ a ∈ l1, p a = false) : (l1 ++ l2).find? p = l2.find? p := by
  induction l1 with
  | nil => rfl
  | cons a l ih =>
      have ha : p a = false := h a (by simp)
      simp only [List.cons_append, List.find?_cons, ha]
      exact ih (fun b hb => h b (by simp [hb]))

/-! ## Claims about the stream controller -/

/-- Claim C10 (confirmed): when no device is selected (empty id), invoking
`startStream` returns immediately: no platform stream request and no change
to any observable state. -/
theorem start_stream_noop_without_selection (w : World)
    (h : w.hud.selectedDeviceId = "") : hudStep w .refresh = w := by
  simp [hudStep, issueAcquire, h]

theorem start_stream_noop_without_selection_witness :
    hudStep initWorld .refresh = initWorld :=
  start_stream_noop_without_selection initWorld rfl

/-- Claim C1, counterexample: `acquire("a")` then `acquire("b")`; the
acquisition for `"b"` completes first, then the superseded one for `"a"`
completes — the session ends up bound to `"a"`'s stream even though the most
recently issued acquire targeted `"b"`.  The superseded outcome is applied to
state, refuting the supersession law as stated. -/
theorem stale_completion_applied_cex :
    boundDevice (hudRun initWorld
      [.select "a", .select "b", .completeSuccess 1, .completeSuccess 0]) = some "a"
    ∧ (hudRun initWorld
      [.select "a", .select "b", .completeSuccess 1, .completeSuccess 0]).hud.selectedDeviceId
        = "b" := by
  constructor
  · decide
  · decide

/-- Claim C1 (corrected): the controller implements no supersession — every
completion of an in-flight acquisition is applied to session state
unconditionally, so the state reflects the most recently *completed*
acquisition, and a superseded attempt's result is applied whenever it
completes after the superseding one's. -/
theorem last_completion_wins (w : World) (c : Nat) (p : PendingCall)
    (hfind : w.pending.find? (fun q => q.cid == c) = some p)
    (hfresh : ∀ s ∈ w.streams, s.sid ≠ c) :
    boundDevice (hudStep w (.completeSuccess c)) = some p.device
    ∧ (hudStep w (.completeSuccess c)).hud.isStreaming = true := by
  have hstep : hudStep w (.completeSuccess c) =
      { w with
        pending := w.pending.filter (fun q => !(q.cid == c)),
        streams := w.streams ++ [{ sid := c, device := p.device, stopped := false }],
        hud := { w.hud with srcObject := some c, isStreaming := true, error := none } } := by
    simp [hudStep, hfind]
  rw [hstep]
  constructor
  · simp only [boundDevice]
    rw [find?_append_of_forall_false _ _ _
      (fun s hs => by simpa using hfresh s hs)]
    simp
  · rfl

theorem last_completion_wins_witness :
    boundDevice (hudStep (hudRun initWorld [.select "a", .select "b", .completeSuccess 1])
      (.completeSuccess 0)) = some "a" :=
  (last_completion_wins (hudRun initWorld [.select "a", .select "b", .completeSuccess 1])
    0 { cid := 0, device := "a" } (by decide) (by decide)).1

/-- Claim C7, counterexample: an acquire for `"a"` whose platform request is
rejected with `OverconstrainedError` surfaces the FORMAT ERROR immediately:
the operation log holds exactly the one original stream request, i.e. no
local retry with a looser resolution hint was attempted before surfacing. -/
theorem overconstrained_no_retry_cex :
    (hudRun initWorld [.select "a", .completeFailure 0 "OverconstrainedError" ""]).hud.error
      = some "FORMAT ERROR: Resolution not supported by glasses."
    ∧ (hudRun initWorld [.select "a", .completeFailure 0 "OverconstrainedError" ""]).ops
      = [.requestStream "a"] := by
  constructor
  · decide
  · decide

/-- Claim C7 (corrected): when an acquisition fails with
`OverconstrainedError` (UnsupportedFormat), the controller surfaces the
FORMAT ERROR immediately and performs no fallback request — handling the
failure issues no platform operation, and any single acquire call issues at
most one platform request. -/
theorem overconstrained_surfaces_immediately :
    (∀ (w : World) (c : Nat) (p : PendingCall) (msg : String),
        w.pending.find? (fun q => q.cid == c) = some p →
        (hudStep w (.completeFailure c "OverconstrainedError" msg)).hud.error
            = some "FORMAT ERROR: Resolution not supported by glasses."
        ∧ (hudStep w (.completeFailure c "OverconstrainedError" msg)).ops = w.ops
        ∧ (hudStep w (.completeFailure c "OverconstrainedError" msg)).hud.isStreaming = false)
    ∧ (∀ w : World, (issueAcquire w).ops.length ≤ w.ops.length + 1) := by
  constructor
  · intro w c p msg hfind
    have hclass : classifyStreamError "OverconstrainedError" msg
        = "FORMAT ERROR: Resolution not supported by glasses." := by
      rw [classifyStreamError, if_neg (by decide), if_pos rfl]
    simp [hudStep, hfind, hclass]
  · intro w
    by_cases h : w.hud.selectedDeviceId = ""
    · simp [issueAcquire, h]
    · simp [issueAcquire, h]

theorem overconstrained_surfaces_immediately_witness :
    (hudStep (hudRun initWorld [.select "a"])
        (.completeFailure 0 "OverconstrainedError" "")).hud.error
      = some "FORMAT ERROR: Resolution not supported by glasses." :=
  (overconstrained_surfaces_immediately.1 (hudRun initWorld [.select "a"])
    0 { cid := 0, device := "a" } "" (by decide)).1

/-! ## Claims about the analysis requester -/

/-- Claim C2 (confirmed): on any transport, encoding or collaborator-reported
error, `analyzeImage` returns the single classified failure
`"Failed to analyze visual input."` — the raw error never escapes the
`try`/`catch` boundary uncaught, and the result is always either a `Text`
success or this classified failure. -/
theorem analyze_error_returns_failure
    (collab : GenRequest → Except String GenResponse)
    (base64Image : List Char) (prompt : String) (e : String)
    (herr : collab (buildRequest base64Image prompt) = .error e) :
    analyzeImage collab base64Image prompt = .error "Failed to analyze visual input." := by
  simp [analyzeImage, herr]

theorem analyze_error_returns_failure_witness :
    analyzeImage (fun _ => .error "ECONNRESET") "TWFu".toList "Describe"
      = .error "Failed to analyze visual input." :=
  analyze_error_returns_failure (fun _ => .error "ECONNRESET") "TWFu".toList "Describe"
    "ECONNRESET" rfl

/-- Claim C4 (confirmed): a successful collaborator response with empty text
yields `Text` of the documented non-empty placeholder
`"No analysis returned from system."`, not a failure and not empty text. -/
theorem empty_text_placeholder
    (collab : GenRequest → Except String GenResponse)
    (base64Image : List Char) (prompt : String)
    (hok : collab (buildRequest base64Image prompt) = .ok { text := "" }) :
    analyzeImage collab base64Image prompt
      = .ok { text := "No analysis returned from system." }
    ∧ "No analysis returned from system." ≠ "" := by
  refine ⟨?_, by decide⟩
  simp [analyzeImage, hok]

theorem empty_text_placeholder_witness :
    analyzeImage (fun _ => .ok { text := "" }) "TWFu".toList "Describe"
      = .ok { text := "No analysis returned from system." } :=
  (empty_text_placeholder (fun _ => .ok { text := "" }) "TWFu".toList "Describe" rfl).1

/-! ## Claims about the device registry -/

/-- Claim C5 (confirmed): with no prior selection, for any non-empty video
input catalog the default-selection heuristic selects the source at the last
position in enumeration order. -/
theorem default_selection_last (autoSelect : Bool) (devices0 : List VideoDevice)
    (enum1 : List PlatDevice) (grant : Bool) (enum2 : List PlatDevice)
    (hperm : (enum1.any (fun d => !(d.label == "")) || grant) = true)
    (hne : videoInputs enum2 ≠ []) :
    (fetchDevices autoSelect "" devices0 enum1 grant enum2).selection
      = ((videoInputs enum2).getD ((videoInputs enum2).length - 1) default).deviceId := by
  have hlen : (videoInputs enum2).length > 0 := List.length_pos.mpr hne
  have hcond : (!(enum1.any (fun d => !(d.label == ""))) && !grant) = false := by
    cases h1 : enum1.any (fun d => !(d.label == "")) <;> cases h2 : grant <;>
      simp_all
  rw [fetchDevices]
  simp only [hcond, Bool.false_eq_true, if_false]
  rw [if_pos hlen, if_pos (by simp)]
  by_cases ht : ((videoInputs enum2).getD ((videoInputs enum2).length - 1) default).deviceId = ""
  · rw [if_neg (by simpa using ht)]
    exact ht.symm
  · rw [if_pos ht]

theorem default_selection_last_witness :
    (fetchDevices false "" [] [] true
        [{ kind := "videoinput", deviceId := "builtin", label := "Front" },
         { kind := "videoinput", deviceId := "usb", label := "Glasses" }]).selection = "usb" := by
  have h := default_selection_last false [] [] true
    [{ kind := "videoinput", deviceId := "builtin", label := "Front" },
     { kind := "videoinput", deviceId := "usb", label := "Glasses" }]
    (by decide) (by decide)
  simpa using h

/-- Claim C8 (confirmed): `fetchDevices` requests camera permission exactly
when no enumerated source exposes a label; it fails with the PERMISSION
DENIED message exactly when that request is made and the platform denies it;
it fails with the NO CAMERA message exactly when enumeration proceeds and the
video-input catalog is empty; and in that empty case the selection is left
unchanged, so no acquisition is triggered. -/
theorem fetch_devices_error_contract (autoSelect : Bool) (selection0 : String)
    (devices0 : List VideoDevice) (enum1 : List PlatDevice) (grant : Bool)
    (enum2 : List PlatDevice) :
    ((fetchDevices autoSelect selection0 devices0 enum1 grant enum2).requestedPermission = true
        ↔ enum1.any (fun d => !(d.label == "")) = false)
    ∧ ((fetchDevices autoSelect selection0 devices0 enum1 grant enum2).outcome
          = some "PERMISSION DENIED. Please allow camera access in browser settings."
        ↔ (enum1.any (fun d => !(d.label == "")) = false ∧ grant = false))
    ∧ ((fetchDevices autoSelect selection0 devices0 enum1 grant enum2).outcome
          = some "NO CAMERA DETECTED. Connect Glasses via OTG."
        ↔ (¬(enum1.any (fun d => !(d.label == "")) = false ∧ grant = false)
            ∧ videoInputs enum2 = []))
    ∧ (videoInputs enum2 = []
        → (fetchDevices autoSelect selection0 devices0 enum1 grant enum2).selection
            = selection0) := by
  have hstr : ("PERMISSION DENIED. Please allow camera access in browser settings." : String)
      ≠ "NO CAMERA DETECTED. Connect Glasses via OTG." := by decide
  rw [fetchDevices]
  cases h1 : enum1.any (fun d => !(d.label == "")) <;> cases h2 : grant
  · simp [hstr]
  · cases hl : videoInputs enum2 with
    | nil => simp [hl, hstr, hstr.symm]
    | cons v vs =>
        simp only [hl]
        rw [if_neg (by decide), if_pos (by simp)]
        split <;> simp
  · cases hl : videoInputs enum2 with
    | nil => simp [hl, hstr, hstr.symm]
    | cons v vs =>
        simp only [hl]
        rw [if_neg (by decide), if_pos (by simp)]
        split <;> simp
  · cases hl : videoInputs enum2 with
    | nil => simp [hl, hstr, hstr.symm]
    | cons v vs =>
        simp only [hl]
        rw [if_neg (by decide), if_pos (by simp)]
        split <;> simp

theorem fetch_devices_error_contract_witness :
    (fetchDevices false "prev" [] [] false []).outcome
      = some "PERMISSION DENIED. Please allow camera access in browser settings." :=
  (fetch_devices_error_contract false "prev" [] [] false []).2.1.mpr ⟨rfl, rfl⟩

/-- Claim C9 (confirmed): `cycleCamera` on a catalog with at least two
devices moves the selection from index `i` to index `(i+1) mod N`; on a
catalog with at most one device it leaves the selection unchanged; and when
the current selection is not in the catalog it selects the first device. -/
theorem cycle_camera_spec (devices : List VideoDevice) (sel : String) :
    (devices.length ≤ 1 → cycleCamera devices sel = sel)
    ∧ (∀ i, 2 ≤ devices.length
        → devices.findIdx? (fun d => d.deviceId == sel) = some i
        → cycleCamera devices sel
            = (devices.getD ((i + 1) % devices.length) default).deviceId)
    ∧ (2 ≤ devices.length
        → devices.findIdx? (fun d => d.deviceId == sel) = none
        → cycleCamera devices sel = (devices.getD 0 default).deviceId) := by
  refine ⟨?_, ?_, ?_⟩
  · intro h
    simp [cycleCamera, h]
  · intro i hn hfind
    rw [cycleCamera, if_neg (by omega), hfind]
    have hcast : (((i : Int) + 1) % ((devices.length : Nat) : Int)).toNat
        = (i + 1) % devices.length := by
      have h1 : ((i : Int) + 1) = ((i + 1 : Nat) : Int) := by push_cast; ring
      rw [h1, ← Int.natCast_mod, Int.toNat_natCast]
    simp only [hcast]
  · intro hn hfind
    rw [cycleCamera, if_neg (by omega), hfind]
    norm_num

theorem cycle_camera_spec_witness :
    cycleCamera [{ deviceId := "a", label := "A" }, { deviceId := "b", label := "B" },
      { deviceId := "c", label := "C" }] "b"
      = (([{ deviceId := "a", label := "A" }, { deviceId := "b", label := "B" },
           { deviceId := "c", label := "C" }] : List VideoDevice).getD ((1 + 1) % 3)
          default).deviceId :=
  (cycle_camera_spec [{ deviceId := "a", label := "A" }, { deviceId := "b", label := "B" },
      { deviceId := "c", label := "C" }] "b").2.1 1 (by decide) (by decide)

/-! ## Lemmas for the data-URL stripping claim -/

theorem mem_of_isPrefixOf {α : Type} [BEq α] [LawfulBEq α] (p t : List α) (a : α)
    (h : p.isPrefixOf t = true) (ha : a ∈ p) : a ∈ t := by
  induction p generalizing t with
  | nil => simp at ha
  | cons x xs ih =>
      cases t with
      | nil => simp [List.isPrefixOf] at h
      | cons y ys =>
          simp only [List.isPrefixOf, Bool.and_eq_true, beq_iff_eq] at h
          rcases List.mem_cons.mp ha with rfl | ha2
          · exact List.mem_cons.mpr (Or.inl h.1)
          · exact List.mem_cons.mpr (Or.inr (ih ys h.2 ha2))

theorem isPrefixOf_self_append {α : Type} [BEq α] [LawfulBEq α] (p t : List α) :
    p.isPrefixOf (p ++ t) = true := by
  induction p with
  | nil => simp [List.isPrefixOf]
  | cons x xs ih => simp [List.isPrefixOf, ih]

theorem afterFirstSep_eq_none (t : List Char) (h : ',' ∉ t) : afterFirstSep t = none := by
  induction t with
  | nil => rfl
  | cons c rest ih =>
      have hnp : ¬(sepChars.isPrefixOf (c :: rest) = true) := by
        intro hpre
        exact h (mem_of_isPrefixOf sepChars (c :: rest) ',' hpre (by decide))
      simp only [afterFirstSep]
      rw [if_neg hnp]
      exact ih (fun hm => h (List.mem_cons.mpr (Or.inr hm)))

theorem upToSep_eq_self (t : List Char) (h : ',' ∉ t) : upToSep t = t := by
  induction t with
  | nil => rfl
  | cons c rest ih =>
      have hnp : ¬(sepChars.isPrefixOf (c :: rest) = true) := by
        intro hpre
        exact h (mem_of_isPrefixOf sepChars (c :: rest) ',' hpre (by decide))
      simp only [upToSep]
      rw [if_neg hnp, ih (fun hm => h (List.mem_cons.mpr (Or.inr hm)))]

theorem afterFirstSep_append (pre p : List Char) (hpre : 'b' ∉ pre) :
    afterFirstSep (pre ++ (sepChars ++ p)) = some p := by
  induction pre with
  | nil =>
      simp only [List.nil_append]
      have hp : sepChars.isPrefixOf (sepChars ++ p) = true := isPrefixOf_self_append sepChars p
      have hsplit : sepChars ++ p = 'b' :: ('a' :: 's' :: 'e' :: '6' :: '4' :: ',' :: p) := rfl
      rw [hsplit] at hp ⊢
      simp only [afterFirstSep]
      rw [if_pos hp]
      rfl
  | cons c pre' ih =>
      have hc : ('b' == c) = false := by
        simp only [beq_eq_false_iff_ne, ne_eq]
        intro hcb
        exact hpre (List.mem_cons.mpr (Or.inl hcb))
      have hnp : ¬(sepChars.isPrefixOf (c :: (pre' ++ (sepChars ++ p))) = true) := by
        intro hpf
        rw [sepChars] at hpf
        simp [List.isPrefixOf, hc] at hpf
      simp only [List.cons_append]
      simp only [afterFirstSep]
      rw [if_neg hnp]
      exact ih (fun hm => hpre (List.mem_cons.mpr (Or.inr hm)))

theorem cleanBase64_strip (pre p : List Char) (hpre : 'b' ∉ pre) (hp : ',' ∉ p) :
    cleanBase64 (pre ++ (sepChars ++ p)) = p := by
  rw [cleanBase64, afterFirstSep_append pre p hpre]
  exact upToSep_eq_self p hp

/-! ## Lemmas for the base64 round trip -/

theorem chunk3_ind {P : List Nat → Prop} (h0 : P []) (h1 : ∀ a, P [a])
    (h2 : ∀ a b, P [a, b]) (h3 : ∀ a b c rest, P rest → P (a :: b :: c :: rest)) :
    ∀ l, P l
  | [] => h0
  | [a] => h1 a
  | [a, b] => h2 a b
  | a :: b :: c :: rest => h3 a b c rest (chunk3_ind h0 h1 h2 h3 rest)

theorem b64EncChar_mem_or (n : Nat) : b64EncChar n ∈ b64Alphabet ∨ b64EncChar n = 'A' := by
  by_cases h : n < b64Alphabet.length
  · left
    rw [b64EncChar, List.getD_eq_getElem?_getD, List.getElem?_eq_getElem h]
    simp only [Option.getD_some]
    exact List.getElem_mem h
  · right
    rw [b64EncChar, List.getD_eq_default _ _ (Nat.le_of_not_lt h)]

theorem b64EncChar_ne_comma (n : Nat) : b64EncChar n ≠ ',' := by
  rcases b64EncChar_mem_or n with h | h
  · have : ∀ c ∈ b64Alphabet, c ≠ ',' := by decide
    exact this _ h
  · rw [h]; decide

theorem b64EncChar_ne_pad (n : Nat) : b64EncChar n ≠ '=' := by
  rcases b64EncChar_mem_or n with h | h
  · have : ∀ c ∈ b64Alphabet, c ≠ '=' := by decide
    exact this _ h
  · rw [h]; decide

theorem b64Encode_no_comma : ∀ l : List Nat, ',' ∉ b64Encode l := by
  refine chunk3_ind ?_ ?_ ?_ ?_
  · simp [b64Encode]
  · intro a hmem
    simp only [b64Encode, List.mem_cons] at hmem
    rcases hmem with h | h | h | h | h
    · exact b64EncChar_ne_comma _ h.symm
    · exact b64EncChar_ne_comma _ h.symm
    · exact absurd h (by decide)
    · exact absurd h (by decide)
    · simp at h
  · intro a b hmem
    simp only [b64Encode, List.mem_cons] at hmem
    rcases hmem with h | h | h | h | h
    · exact b64EncChar_ne_comma _ h.symm
    · exact b64EncChar_ne_comma _ h.symm
    · exact b64EncChar_ne_comma _ h.symm
    · exact absurd h (by decide)
    · simp at h
  · intro a b c rest ih hmem
    simp only [b64Encode, List.mem_cons] at hmem
    rcases hmem with h | h | h | h | h
    · exact b64EncChar_ne_comma _ h.symm
    · exact b64EncChar_ne_comma _ h.symm
    · exact b64EncChar_ne_comma _ h.symm
    · exact b64EncChar_ne_comma _ h.symm
    · exact ih h

theorem b64DecChar_encChar (s : Nat) (h : s < 64) : b64DecChar (b64EncChar s) = some s := by
  have H : ∀ f : Fin 64, b64DecChar (b64EncChar f.val) = some f.val := by decide
  exact H ⟨s, h⟩

theorem b64_roundtrip : ∀ l : List Nat, (∀ b ∈ l, b < 256) → b64Decode (b64Encode l) = some l := by
  refine chunk3_ind ?_ ?_ ?_ ?_
  · intro _
    rfl
  · intro a h
    have ha : a < 256 := h a (by simp)
    simp only [b64Encode, b64Decode]
    rw [b64DecChar_encChar _ (by omega), b64DecChar_encChar _ (by omega)]
    have h1 : a % 4 * 16 % 16 = 0 := by omega
    simp [h1]
    all_goals omega
  · intro a b h
    have ha : a < 256 := h a (by simp)
    have hb : b < 256 := h b (by simp)
    simp only [b64Encode, b64Decode]
    rw [b64DecChar_encChar _ (by omega), b64DecChar_encChar _ (by omega),
      b64DecChar_encChar _ (by omega)]
    have h1 : b % 16 * 4 % 4 = 0 := by omega
    simp [b64EncChar_ne_pad, h1]
    all_goals omega
  · intro a b c rest ih h
    have ha : a < 256 := h a (by simp)
    have hb : b < 256 := h b (by simp)
    have hc : c < 256 := h c (by simp)
    have ihr : b64Decode (b64Encode rest) = some rest :=
      ih (fun x hx => h x (by simp [hx]))
    have henc : b64Encode (a :: b :: c :: rest)
        = b64EncChar (a / 4) :: b64EncChar (a % 4 * 16 + b / 16) ::
          b64EncChar (b % 16 * 4 + c / 64) :: b64EncChar (c % 64) :: b64Encode rest := rfl
    rw [henc]
    simp only [b64Decode]
    rw [b64DecChar_encChar _ (by omega), b64DecChar_encChar _ (by omega),
      b64DecChar_encChar _ (by omega), b64DecChar_encChar _ (by omega), ihr]
    simp [b64EncChar_ne_pad]
    all_goals omega

/-- Claim C6 (confirmed): a payload carrying the data-URL prefix ending in
`"base64,"` is transmitted to the collaborator with exactly that prefix
stripped (the remainder of a base64 payload contains no comma, so the
JavaScript `split [1]` segment is the whole remainder); a payload in which
the separator does not occur is transmitted unchanged; and
encode-then-strip-then-decode is the identity on the raw bytes. -/
theorem strip_roundtrip (bytes : List Nat) (s : List Char) (prompt : String)
    (hbytes : ∀ b ∈ bytes, b < 256) :
    (buildRequest (dataUrlEncode bytes) prompt).data = b64Encode bytes
    ∧ b64Decode ((buildRequest (dataUrlEncode bytes) prompt).data) = some bytes
    ∧ (afterFirstSep s = none → (buildRequest s prompt).data = s) := by
  have hhead : dataUrlHeader = "data:image/jpeg;".toList ++ sepChars := by decide
  have hstrip : (buildRequest (dataUrlEncode bytes) prompt).data = b64Encode bytes := by
    show cleanBase64 (dataUrlHeader ++ b64Encode bytes) = b64Encode bytes
    rw [hhead, List.append_assoc]
    exact cleanBase64_strip _ _ (by decide) (b64Encode_no_comma bytes)
  refine ⟨hstrip, ?_, ?_⟩
  · rw [hstrip]
    exact b64_roundtrip bytes hbytes
  · intro hnone
    show cleanBase64 s = s
    rw [cleanBase64, hnone]

theorem strip_roundtrip_witness :
    b64Decode ((buildRequest (dataUrlEncode [77, 97, 110]) "Describe").data)
      = some [77, 97, 110] :=
  (strip_roundtrip [77, 97, 110] "TWFu".toList "Describe" (by decide)).2.1

/-! ## The sequential single-lock invariant (claim C3)

An invariant of every world reachable by a sequential trace (each acquire
issued only while no acquisition is in flight): only the stream bound to the
video element can be unstopped, all streams are stopped while a call is in
flight, stream identifiers are distinct and fresh, and at most one call is in
flight. -/

def HudInv (w : World) : Prop :=
  (∀ s ∈ w.streams, s.stopped = false → w.hud.srcObject = some s.sid)
  ∧ (w.pending ≠ [] → ∀ s ∈ w.streams, s.stopped = true)
  ∧ (w.streams.map (fun s => s.sid)).Nodup
  ∧ (∀ s ∈ w.streams, s.sid < w.nextId)
  ∧ (∀ p ∈ w.pending, p.cid < w.nextId)
  ∧ (∀ p ∈ w.pending, ∀ s ∈ w.streams, p.cid ≠ s.sid)
  ∧ w.pending.length ≤ 1

theorem inv_init : HudInv initWorld := by
  refine ⟨?_, ?_, ?_, ?_, ?_, ?_, ?_⟩ <;> simp [initWorld]

theorem stopTracks_map_sid (bound : Option Nat) (l : List MStream) :
    (stopTracks bound l).map (fun s => s.sid) = l.map (fun s => s.sid) := by
  cases bound with
  | none => rfl
  | some b =>
      rw [stopTracks, List.map_map]
      congr 1
      funext s
      by_cases h : s.sid = b <;> simp [h]

theorem sid_mem_of_mem_stopTracks (bound : Option Nat) (l : List MStream) (s : MStream)
    (hs : s ∈ stopTracks bound l) : ∃ s0 ∈ l, s0.sid = s.sid := by
  have : s.sid ∈ (stopTracks bound l).map (fun t => t.sid) := List.mem_map_of_mem _ hs
  rw [stopTracks_map_sid] at this
  obtain ⟨s0, hs0, hsid⟩ := List.mem_map.mp this
  exact ⟨s0, hs0, hsid⟩

theorem inv_issueAcquire (w : World) (hInv : HudInv w) (hseq : w.pending = []) :
    HudInv (issueAcquire w) := by
  by_cases hsel : w.hud.selectedDeviceId = ""
  · have : issueAcquire w = w := by simp [issueAcquire, hsel]
    rw [this]
    exact hInv
  · obtain ⟨A, B, C, D, E, F, H⟩ := hInv
    have hallstop : ∀ s ∈ stopTracks w.hud.srcObject w.streams, s.stopped = true := by
      intro s hs
      cases hb : w.hud.srcObject with
      | none =>
          rw [hb] at hs
          simp only [stopTracks] at hs
          by_contra hns
          have hA := A s hs (by simpa using hns)
          rw [hb] at hA
          exact Option.noConfusion hA
      | some b =>
          rw [hb] at hs
          simp only [stopTracks] at hs
          obtain ⟨s0, hs0, rfl⟩ := List.mem_map.mp hs
          by_cases h0 : s0.sid = b
          · simp [h0]
          · simp only [h0, if_false]
            by_contra hns
            have hA := A s0 hs0 (by simpa using hns)
            rw [hb] at hA
            exact h0 (Option.some.injEq _ _ ▸ hA.symm ▸ rfl)
    have hstep : issueAcquire w =
        { w with
          streams := stopTracks w.hud.srcObject w.streams,
          ops := w.ops ++ [.requestStream w.hud.selectedDeviceId],
          pending := w.pending ++ [{ cid := w.nextId, device := w.hud.selectedDeviceId }],
          nextId := w.nextId + 1 } := by
      rw [issueAcquire, if_neg hsel]
    rw [hstep, hseq]
    refine ⟨?_, ?_, ?_, ?_, ?_, ?_, ?_⟩
    · intro s hs hsf
      rw [hallstop s hs] at hsf
      exact Bool.noConfusion hsf
    · intro _ s hs
      exact hallstop s hs
    · simpa only [stopTracks_map_sid] using C
    · intro s hs
      dsimp only at hs ⊢
      obtain ⟨s0, hs0, hsid⟩ := sid_mem_of_mem_stopTracks _ _ s hs
      have := D s0 hs0
      omega
    · intro p hp
      dsimp only at hp ⊢
      simp only [List.nil_append, List.mem_singleton] at hp
      subst hp
      dsimp only
      omega
    · intro p hp s hs
      dsimp only at hp hs ⊢
      simp only [List.nil_append, List.mem_singleton] at hp
      subst hp
      dsimp only
      obtain ⟨s0, hs0, hsid⟩ := sid_mem_of_mem_stopTracks _ _ s hs
      have := D s0 hs0
      omega
    · simp

theorem inv_completeSuccess (w : World) (c : Nat) (hInv : HudInv w) :
    HudInv (hudStep w (.completeSuccess c)) := by
  cases hfind : w.pending.find? (fun p => p.cid == c) with
  | none =>
      have : hudStep w (.completeSuccess c) = w := by simp [hudStep, hfind]
      rw [this]
      exact hInv
  | some p =>
      obtain ⟨A, B, C, D, E, F, H⟩ := hInv
      have hp : p ∈ w.pending := List.mem_of_find?_eq_some hfind
      have hpc : p.cid = c := by simpa using List.find?_some hfind
      have hne : w.pending ≠ [] := List.ne_nil_of_mem hp
      have hstopall : ∀ s ∈ w.streams, s.stopped = true := B hne
      have hpend1 : w.pending = [p] := by
        cases hq : w.pending with
        | nil => exact absurd hq hne
        | cons q rest =>
            cases rest with
            | nil =>
                rw [hq] at hp
                simp only [List.mem_singleton] at hp
                rw [hp]
            | cons q2 rest2 =>
                rw [hq] at H
                simp at H
      have hfilter : w.pending.filter (fun q => !(q.cid == c)) = [] := by
        rw [hpend1]
        simp [hpc]
      have hstep : hudStep w (.completeSuccess c) =
          { w with
            pending := w.pending.filter (fun q => !(q.cid == c)),
            streams := w.streams ++ [{ sid := c, device := p.device, stopped := false }],
            hud := { w.hud with srcObject := some c, isStreaming := true, error := none } } := by
        simp [hudStep, hfind]
      rw [hstep, hfilter]
      refine ⟨?_, ?_, ?_, ?_, ?_, ?_, ?_⟩
      · intro s hs _
        rcases List.mem_append.mp hs with hold | hnew
        · rw [hstopall s hold] at *
          simp_all
        · simp only [List.mem_singleton] at hnew
          rw [hnew]
      · intro hcon
        exact absurd rfl hcon
      · rw [List.map_append]
        rw [List.nodup_append]
        refine ⟨C, by simp, ?_⟩
        intro x hx hx2
        simp only [List.map_cons, List.map_nil, List.mem_singleton] at hx2
        obtain ⟨s0, hs0, hsid⟩ := List.mem_map.mp hx
        rw [hx2] at hsid
        exact F p hp s0 hs0 (hpc ▸ hsid.symm)
      · intro s hs
        rcases List.mem_append.mp hs with hold | hnew
        · exact D s hold
        · simp only [List.mem_singleton] at hnew
          rw [hnew]
          exact hpc ▸ E p hp
      · intro q hq
        simp at hq
      · intro q hq
        simp at hq
      · simp

theorem inv_completeFailure (w : World) (c : Nat) (name msg : String) (hInv : HudInv w) :
    HudInv (hudStep w (.completeFailure c name msg)) := by
  cases hfind : w.pending.find? (fun p => p.cid == c) with
  | none =>
      have : hudStep w (.completeFailure c name msg) = w := by simp [hudStep, hfind]
      rw [this]
      exact hInv
  | some p =>
      obtain ⟨A, B, C, D, E, F, H⟩ := hInv
      have hstep : hudStep w (.completeFailure c name msg) =
          { w with
            pending := w.pending.filter (fun q => !(q.cid == c)),
            hud := { w.hud with
                       error := some (classifyStreamError name msg),
                       isStreaming := false } } := by
        simp [hudStep, hfind]
      rw [hstep]
      refine ⟨A, ?_, C, D, ?_, ?_, ?_⟩
      · intro hne
        refine B (fun hnil => hne ?_)
        rw [hnil]
        rfl
      · intro q hq
        exact E q (List.mem_of_mem_filter hq)
      · intro q hq s hs
        exact F q (List.mem_of_mem_filter hq) s hs
      · exact le_trans (List.length_filter_le _ _) H

theorem inv_step (w : World) (e : HudEvent) (hInv : HudInv w)
    (hseq : issuesCall w e = true → w.pending = []) : HudInv (hudStep w e) := by
  cases e with
  | refresh =>
      by_cases hsel : w.hud.selectedDeviceId = ""
      · have : hudStep w .refresh = w := by simp [hudStep, issueAcquire, hsel]
        rw [this]
        exact hInv
      · refine inv_issueAcquire w hInv (hseq ?_)
        simp [issuesCall, hsel]
  | select d =>
      by_cases hd : d = w.hud.selectedDeviceId
      · have : hudStep w (.select d) = w := by simp [hudStep, hd]
        rw [this]
        exact hInv
      · have hstep : hudStep w (.select d)
            = issueAcquire { w with hud := { w.hud with selectedDeviceId := d } } := by
          simp [hudStep, hd]
        rw [hstep]
        by_cases hd0 : d = ""
        · have : issueAcquire { w with hud := { w.hud with selectedDeviceId := d } }
              = { w with hud := { w.hud with selectedDeviceId := d } } := by
            simp [issueAcquire, hd0]
          rw [this]
          exact hInv
        · refine inv_issueAcquire _ hInv (hseq ?_)
          simp [issuesCall, hd, hd0]
  | completeSuccess c => exact inv_completeSuccess w c hInv
  | completeFailure c name msg => exact inv_completeFailure w c name msg hInv

theorem inv_run : ∀ (tr : List HudEvent) (w : World), HudInv w → seqOk w tr = true
    → HudInv (hudRun w tr) := by
  intro tr
  induction tr with
  | nil =>
      intro w hInv _
      exact hInv
  | cons e tr2 ih =>
      intro w hInv hseq
      rw [seqOk, Bool.and_eq_true] at hseq
      obtain ⟨h1, h2⟩ := hseq
      refine ih (hudStep w e) (inv_step w e hInv ?_) h2
      intro hic
      rw [hic] at h1
      simp only [Bool.not_true, Bool.false_or] at h1
      exact List.isEmpty_iff.mp h1

theorem length_le_one_of_sid_eq (l : List MStream) (b : Nat)
    (hnd : (l.map (fun s => s.sid)).Nodup) (hall : ∀ s ∈ l, s.sid = b) : l.length ≤ 1 := by
  cases l with
  | nil => simp
  | cons s rest =>
      cases rest with
      | nil => simp
      | cons t rest2 =>
          exfalso
          have hs : s.sid = b := hall s (by simp)
          have ht : t.sid = b := hall t (by simp)
          simp only [List.map_cons, List.nodup_cons, List.mem_cons] at hnd
          exact hnd.1 (Or.inl (hs.trans ht.symm))

theorem unstopped_le_one (w : World) (hInv : HudInv w) : unstoppedCount w ≤ 1 := by
  obtain ⟨A, _, C, _⟩ := hInv
  cases hb : w.hud.srcObject with
  | none =>
      cases hl : w.streams.filter (fun s => !s.stopped) with
      | nil => simp [unstoppedCount, hl]
      | cons s rest =>
          exfalso
          have hs : s ∈ w.streams.filter (fun s => !s.stopped) := by
            rw [hl]
            simp
          obtain ⟨hmem, hns⟩ := List.mem_filter.mp hs
          have hA := A s hmem (by simpa using hns)
          rw [hb] at hA
          exact Option.noConfusion hA
  | some b =>
      rw [unstoppedCount]
      refine length_le_one_of_sid_eq _ b ?_ ?_
      · exact C.sublist (List.Sublist.map _ (List.filter_sublist _))
      · intro s hs
        obtain ⟨hmem, hns⟩ := List.mem_filter.mp hs
        have hA := A s hmem (by simpa using hns)
        rw [hb] at hA
        exact (Option.some.injEq _ _ ▸ hA).symm

/-- Claim C3, counterexample: two overlapping acquisitions — `acquire("a")`,
then `acquire("b")` while the first is still in flight, then both complete.
At the second acquire nothing is bound yet, so nothing is stopped; after both
completions two streams exist whose tracks were never stopped, i.e. two
capture sessions hold the exclusive hardware lock simultaneously. -/
theorem overlapping_acquire_two_locks_cex :
    unstoppedCount (hudRun initWorld
      [.select "a", .select "b", .completeSuccess 0, .completeSuccess 1]) = 2 := by
  decide

/-- Claim C3 (corrected): every acquire call first stops the tracks of the
capture session currently bound to the video element before requesting a new
hardware stream; consequently, along every sequential trace — each acquire
issued only while no acquisition is in flight — at most one capture session
ever holds the exclusive hardware lock.  (Overlapping acquisitions can leave
two unstopped sessions, per the counterexample.) -/
theorem sequential_acquire_single_lock :
    (∀ tr : List HudEvent, seqOk initWorld tr = true
        → unstoppedCount (hudRun initWorld tr) ≤ 1)
    ∧ (∀ (w : World) (b : Nat) (s : MStream), w.hud.srcObject = some b
        → w.hud.selectedDeviceId ≠ ""
        → s ∈ (issueAcquire w).streams → s.sid = b
        → s.stopped = true) := by
  constructor
  · intro tr hseq
    exact unstopped_le_one _ (inv_run tr initWorld inv_init hseq)
  · intro w b s hb hsel hs hsid
    rw [issueAcquire, if_neg hsel] at hs
    dsimp only at hs
    rw [hb] at hs
    simp only [stopTracks] at hs
    obtain ⟨s0, _, rfl⟩ := List.mem_map.mp hs
    by_cases h0 : s0.sid = b
    · simp [h0]
    · simp only [h0, if_false] at hsid ⊢

theorem sequential_acquire_single_lock_witness :
    unstoppedCount (hudRun initWorld
      [.select "a", .completeSuccess 0, .select "b", .completeSuccess 1]) ≤ 1 :=
  sequential_acquire_single_lock.1
    [.select "a", .completeSuccess 0, .select "b", .completeSuccess 1] (by decide)
